import Mathlib

/-!
Verification of `src/services/agent/tensor_ops.cpp`.

The C++ file exposes three pure functions over raw float buffers:
`cosine_similarity`, `calculate_influence_tensor` and `propagate_risk`.
We embed them shallowly: a buffer is a total function `ℕ → ℝ` together
with an `ℤ` length (matching the C `int` length parameter, so that
non-positive lengths behave like the C loop that never runs), and
IEEE-754 single-precision arithmetic is idealised as exact real
arithmetic.  Each loop becomes a structural recursion that accumulates
in the same order as the C loop.
-/

namespace TensorOps

/-- The single pass of `cosine_similarity`'s loop: after `n` iterations it
holds the running dot product and the two running squared norms, in the
order `(dot, norm_v1, norm_v2)`, exactly as the three running sums of the
C loop `for (int i = 0; i < size; ++i)`. -/
def accumulate (v1 v2 : ℕ → ℝ) : ℕ → ℝ × ℝ × ℝ
  | 0 => (0, 0, 0)
  | n + 1 =>
      let acc := accumulate v1 v2 n
      (acc.1 + v1 n * v2 n, acc.2.1 + v1 n * v1 n, acc.2.2 + v2 n * v2 n)

/-- Embedding of `cosine_similarity(const float* v1, const float* v2, int size)`:
run the single accumulation pass, return `0.0` when either accumulated
squared norm is exactly zero, otherwise `dot / (sqrt(norm_v1) * sqrt(norm_v2))`. -/
noncomputable def cosine_similarity (v1 v2 : ℕ → ℝ) (size : ℤ) : ℝ :=
  let acc := accumulate v1 v2 size.toNat
  if acc.2.1 = 0 ∨ acc.2.2 = 0 then 0
  else acc.1 / (Real.sqrt acc.2.1 * Real.sqrt acc.2.2)

/-- Embedding of `calculate_influence_tensor`: the cosine similarity of the
two tensors multiplied by the centrality scalar. -/
noncomputable def calculate_influence_tensor (firm_tensor node_tensor : ℕ → ℝ)
    (size : ℤ) (centrality : ℝ) : ℝ :=
  cosine_similarity firm_tensor node_tensor size * centrality

/-- The loop of `propagate_risk`: the running product `parent_p_success`
after `n` iterations, multiplying `parent_probs[i]` in index order. -/
def parentProduct (parent_probs : ℕ → ℝ) : ℕ → ℝ
  | 0 => 1
  | n + 1 => parentProduct parent_probs n * parent_probs n

/-- Embedding of `propagate_risk(float local_failure_prob, float multiplier,
const float* parent_probs, int num_parents)`: the local success term
`1 - min(1, local_failure_prob * multiplier)` times the running product of
the parent probabilities. -/
noncomputable def propagate_risk (local_failure_prob multiplier : ℝ)
    (parent_probs : ℕ → ℝ) (num_parents : ℤ) : ℝ :=
  (1 - min 1 (local_failure_prob * multiplier)) *
    parentProduct parent_probs num_parents.toNat

/-- Spec-side definition: the dot product of the first `n` entries. -/
def dotProduct (v1 v2 : ℕ → ℝ) (n : ℕ) : ℝ :=
  ∑ i in Finset.range n, v1 i * v2 i

/-- Spec-side definition: the Euclidean norm of the first `n` entries,
the square root of the sum of squares. -/
noncomputable def euclideanNorm (v : ℕ → ℝ) (n : ℕ) : ℝ :=
  Real.sqrt (∑ i in Finset.range n, v i * v i)

/-- The accumulation pass computes the three sums over `Finset.range n`. -/
theorem accumulate_eq_sums (v1 v2 : ℕ → ℝ) (n : ℕ) :
    accumulate v1 v2 n =
      (∑ i in Finset.range n, v1 i * v2 i,
       ∑ i in Finset.range n, v1 i * v1 i,
       ∑ i in Finset.range n, v2 i * v2 i) := by
  induction n with
  | zero => simp [accumulate]
  | succ n ih => simp [accumulate, ih, Finset.sum_range_succ]

/-- The parent-product loop computes the product over `Finset.range n`. -/
theorem parentProduct_eq_prod (p : ℕ → ℝ) (n : ℕ) :
    parentProduct p n = ∏ i in Finset.range n, p i := by
  induction n with
  | zero => simp [parentProduct]
  | succ n ih => simp [parentProduct, ih, Finset.prod_range_succ]

/-- Helper: when either accumulated squared norm is zero the clamp fires. -/
theorem cosine_similarity_of_norm_eq_zero (v1 v2 : ℕ → ℝ) (size : ℤ)
    (h : (accumulate v1 v2 size.toNat).2.1 = 0 ∨
         (accumulate v1 v2 size.toNat).2.2 = 0) :
    cosine_similarity v1 v2 size = 0 := by
  unfold cosine_similarity
  simp [h]

/-- Helper: a zero first vector accumulates a zero squared norm, so the
clamp returns `0`. -/
theorem cosine_similarity_zero_left (v2 : ℕ → ℝ) (size : ℤ) :
    cosine_similarity (fun _ => 0) v2 size = 0 := by
  apply cosine_similarity_of_norm_eq_zero
  left
  rw [accumulate_eq_sums]
  simp

/-- C1: for vectors whose squared norms over the first `size` entries are
both nonzero, `cosine_similarity` returns the dot product divided by the
product of the two Euclidean norms, the three sums being accumulated in a
single pass. -/
theorem cosine_similarity_spec (v1 v2 : ℕ → ℝ) (size : ℤ)
    (h1 : ∑ i in Finset.range size.toNat, v1 i * v1 i ≠ 0)
    (h2 : ∑ i in Finset.range size.toNat, v2 i * v2 i ≠ 0) :
    cosine_similarity v1 v2 size =
      dotProduct v1 v2 size.toNat /
        (euclideanNorm v1 size.toNat * euclideanNorm v2 size.toNat) := by
  unfold cosine_similarity dotProduct euclideanNorm
  rw [accumulate_eq_sums]
  simp [h1, h2]

/-- Witness for C1 at `v1 = v2 = (1,1,...)`, `size = 1`. -/
theorem cosine_similarity_spec_witness :
    (∑ _i in Finset.range (1 : ℤ).toNat, (1 : ℝ) * 1 ≠ 0) ∧
    cosine_similarity (fun _ => 1) (fun _ => 1) 1 =
      dotProduct (fun _ => 1) (fun _ => 1) (1 : ℤ).toNat /
        (euclideanNorm (fun _ => 1) (1 : ℤ).toNat *
          euclideanNorm (fun _ => 1) (1 : ℤ).toNat) :=
  ⟨by norm_num, cosine_similarity_spec (fun _ => 1) (fun _ => 1) 1
      (by norm_num) (by norm_num)⟩

/-- C2: if either accumulated squared norm is exactly zero then
`cosine_similarity` returns exactly `0`; in particular it returns `0`
whenever the first vector is the zero vector, for any second argument
(including another zero vector) and any size. -/
theorem cosine_similarity_zero_clamp :
    (∀ (v1 v2 : ℕ → ℝ) (size : ℤ),
        (accumulate v1 v2 size.toNat).2.1 = 0 ∨
          (accumulate v1 v2 size.toNat).2.2 = 0 →
        cosine_similarity v1 v2 size = 0) ∧
    (∀ (v2 : ℕ → ℝ) (size : ℤ),
        cosine_similarity (fun _ => 0) v2 size = 0) :=
  ⟨cosine_similarity_of_norm_eq_zero, cosine_similarity_zero_left⟩

/-- Witness for C2: the zero vector against `(1,1)` at size `2`. -/
theorem cosine_similarity_zero_clamp_witness :
    ((accumulate (fun _ => 0) (fun _ => 1) (2 : ℤ).toNat).2.1 = 0 ∨
      (accumulate (fun _ => 0) (fun _ => (1 : ℝ)) (2 : ℤ).toNat).2.2 = 0) ∧
    cosine_similarity (fun _ => 0) (fun _ => 1) 2 = 0 :=
  ⟨Or.inl (by rw [accumulate_eq_sums]; simp),
   cosine_similarity_zero_clamp.1 (fun _ => 0) (fun _ => 1) 2
     (Or.inl (by rw [accumulate_eq_sums]; simp))⟩

/-- C3: `propagate_risk` equals `(1 - min(1, f*m))` times the product of
the first `num_parents` parent probabilities; the product `f*m` is clamped
above at `1` before the subtraction and no lower clamp is applied. -/
theorem propagate_risk_spec (f m : ℝ) (p : ℕ → ℝ) (k : ℤ) :
    propagate_risk f m p k =
      (1 - min 1 (f * m)) * ∏ i in Finset.range k.toNat, p i := by
  unfold propagate_risk
  rw [parentProduct_eq_prod]

/-- C4: `calculate_influence_tensor` is exactly the cosine similarity
multiplied by the centrality scalar, for every centrality (zero and
negative included), and it inherits the zero-vector clamp: a zero vector
yields `0` regardless of centrality. -/
theorem calculate_influence_tensor_spec :
    (∀ (v1 v2 : ℕ → ℝ) (size : ℤ) (c : ℝ),
        calculate_influence_tensor v1 v2 size c =
          cosine_similarity v1 v2 size * c) ∧
    (∀ (v2 : ℕ → ℝ) (size : ℤ) (c : ℝ),
        calculate_influence_tensor (fun _ => 0) v2 size c = 0) :=
  ⟨fun _ _ _ _ => rfl,
   fun v2 size c => by
     unfold calculate_influence_tensor
     rw [cosine_similarity_zero_left, zero_mul]⟩

/-- C5: `cosine_similarity` is symmetric in its two vector arguments. -/
theorem cosine_similarity_symm (v1 v2 : ℕ → ℝ) (size : ℤ) :
    cosine_similarity v1 v2 size = cosine_similarity v2 v1 size := by
  unfold cosine_similarity
  rw [accumulate_eq_sums, accumulate_eq_sums]
  have hd : ∑ i in Finset.range size.toNat, v1 i * v2 i =
      ∑ i in Finset.range size.toNat, v2 i * v1 i :=
    Finset.sum_congr rfl fun i _ => mul_comm _ _
  by_cases h1 : ∑ i in Finset.range size.toNat, v1 i * v1 i = 0 <;>
    by_cases h2 : ∑ i in Finset.range size.toNat, v2 i * v2 i = 0 <;>
      simp [h1, h2, hd, mul_comm]

/-- C6: with an empty parent array (`num_parents = 0`) the parent product
is the multiplicative identity `1`, so `propagate_risk` returns exactly
the local success term `1 - min(1, f*m)`, for every parent array. -/
theorem propagate_risk_empty_parents (f m : ℝ) (p : ℕ → ℝ) :
    propagate_risk f m p 0 = 1 - min 1 (f * m) := by
  unfold propagate_risk
  simp [parentProduct]

/-- C7: with a zero local failure probability the local success term is
`1`, so `propagate_risk` returns exactly the product of the parent
probabilities, for every multiplier. -/
theorem propagate_risk_zero_failure (m : ℝ) (p : ℕ → ℝ) (k : ℤ) :
    propagate_risk 0 m p k = ∏ i in Finset.range k.toNat, p i := by
  unfold propagate_risk
  rw [parentProduct_eq_prod]
  norm_num

/-- C8 counterexample: with parent array `(-1, 1)` and the second entry
lowered toward zero (to `0`), the result of `propagate_risk` strictly
increases from `-1` to `0`, so the claimed monotonicity fails when a
parent entry other than the varied one is negative. -/
theorem propagate_risk_monotone_counterexample :
    propagate_risk 0 0 (fun i => if i = 0 then (-1 : ℝ) else 1) 2 = -1 ∧
    propagate_risk 0 0
      (Function.update (fun i => if i = 0 then (-1 : ℝ) else 1) 1 0) 2 = 0 ∧
    ¬ propagate_risk 0 0
        (Function.update (fun i => if i = 0 then (-1 : ℝ) else 1) 1 0) 2 ≤
      propagate_risk 0 0 (fun i => if i = 0 then (-1 : ℝ) else 1) 2 := by
  refine ⟨?_, ?_, ?_⟩ <;>
    norm_num [propagate_risk, parentProduct, Function.update]

/-- C8 amended: provided every parent entry other than `parents[i]` is
nonnegative, `propagate_risk` is non-increasing as `parents[i]` is lowered
toward `0` (from `p i` to any `x` with `0 ≤ x ≤ p i`), all else fixed. -/
theorem propagate_risk_monotone (f m : ℝ) (p : ℕ → ℝ) (k : ℤ) (i : ℕ)
    (x : ℝ) (hnn : ∀ j, j ≠ i → 0 ≤ p j) (_hx0 : 0 ≤ x) (hxi : x ≤ p i) :
    propagate_risk f m (Function.update p i x) k ≤ propagate_risk f m p k := by
  unfold propagate_risk
  rw [parentProduct_eq_prod, parentProduct_eq_prod]
  have hloc : 0 ≤ 1 - min 1 (f * m) :=
    sub_nonneg.2 (min_le_left 1 (f * m))
  by_cases hi : i ∈ Finset.range k.toNat
  · rw [Finset.prod_update_of_mem hi, ← Finset.erase_eq,
      ← Finset.mul_prod_erase _ _ hi]
    have hC : 0 ≤ ∏ j in (Finset.range k.toNat).erase i, p j :=
      Finset.prod_nonneg fun j hj => hnn j (Finset.ne_of_mem_erase hj)
    exact mul_le_mul_of_nonneg_left
      (mul_le_mul_of_nonneg_right hxi hC) hloc
  · rw [Finset.prod_update_of_not_mem hi]

/-- Witness for C8 amended at `p = (1,1)`, `i = 0`, lowered to `0`. -/
theorem propagate_risk_monotone_witness :
    (∀ j : ℕ, j ≠ 0 → (0 : ℝ) ≤ (fun _ : ℕ => (1 : ℝ)) j) ∧
    (0 : ℝ) ≤ 0 ∧ (0 : ℝ) ≤ (fun _ : ℕ => (1 : ℝ)) 0 ∧
    propagate_risk 0 0 (Function.update (fun _ : ℕ => (1 : ℝ)) 0 0) 2 ≤
      propagate_risk 0 0 (fun _ : ℕ => (1 : ℝ)) 2 :=
  ⟨fun _ _ => zero_le_one, le_refl 0, zero_le_one,
   propagate_risk_monotone 0 0 (fun _ => 1) 2 0 0
     (fun _ _ => zero_le_one) (le_refl 0) zero_le_one⟩

/-- C9: the cosine similarity of a vector with itself is exactly `1`
whenever the vector is nonzero somewhere among its first `size` entries
(in the exact-real idealisation the floating-point tolerance is `0`). -/
theorem cosine_similarity_self (v : ℕ → ℝ) (size : ℤ)
    (h : ∃ i, i < size.toNat ∧ v i ≠ 0) :
    cosine_similarity v v size = 1 := by
  have hs : 0 < ∑ i in Finset.range size.toNat, v i * v i := by
    obtain ⟨i, hi, hv⟩ := h
    exact Finset.sum_pos' (fun j _ => mul_self_nonneg (v j))
      ⟨i, Finset.mem_range.2 hi, mul_self_pos.2 hv⟩
  unfold cosine_similarity
  rw [accumulate_eq_sums]
  simp only
  rw [if_neg (by push_neg; exact ⟨ne_of_gt hs, ne_of_gt hs⟩),
    Real.mul_self_sqrt hs.le]
  exact div_self (ne_of_gt hs)

/-- Witness for C9 at the constant vector `1` with `size = 2`. -/
theorem cosine_similarity_self_witness :
    (∃ i, i < (2 : ℤ).toNat ∧ (fun _ : ℕ => (1 : ℝ)) i ≠ 0) ∧
    cosine_similarity (fun _ => 1) (fun _ => 1) 2 = 1 :=
  ⟨⟨0, by norm_num⟩,
   cosine_similarity_self (fun _ => 1) 2 ⟨0, by norm_num⟩⟩

/-- C10: when `size ≤ 0` the similarity loop never runs, both accumulated
squared norms stay `0` and the clamp returns exactly `0`; when
`num_parents ≤ 0` the parent product stays `1` and `propagate_risk`
returns just the local success term, independent of the array. -/
theorem nonpositive_length_behavior :
    (∀ (v1 v2 : ℕ → ℝ) (size : ℤ), size ≤ 0 →
        cosine_similarity v1 v2 size = 0) ∧
    (∀ (f m : ℝ) (p : ℕ → ℝ) (k : ℤ), k ≤ 0 →
        propagate_risk f m p k = 1 - min 1 (f * m)) := by
  constructor
  · intro v1 v2 size hsize
    apply cosine_similarity_of_norm_eq_zero
    rw [Int.toNat_of_nonpos hsize]
    exact Or.inl rfl
  · intro f m p k hk
    unfold propagate_risk
    rw [Int.toNat_of_nonpos hk]
    simp [parentProduct]

/-- Witness for C10 at `size = -1` and `num_parents = -1`. -/
theorem nonpositive_length_behavior_witness :
    ((-1 : ℤ) ≤ 0 ∧ cosine_similarity (fun _ => 1) (fun _ => 1) (-1) = 0) ∧
    ((-1 : ℤ) ≤ 0 ∧ propagate_risk 1 1 (fun _ => 1) (-1) = 1 - min 1 (1 * 1)) :=
  ⟨⟨by norm_num,
    nonpositive_length_behavior.1 (fun _ => 1) (fun _ => 1) (-1) (by norm_num)⟩,
   ⟨by norm_num,
    nonpositive_length_behavior.2 1 1 (fun _ => 1) (-1) (by norm_num)⟩⟩

end TensorOps
